import Mathlib

/-!
Verification of the agentic workflow orchestrator core.

This file shallowly embeds the parts of the repository needed to settle the
frozen claims: the stage-graph scheduler (src/graph/stage_graph.py together
with the typed channels it declares and src/runtime/stage_registry.py), the
orchestrator (src/runtime/orchestrator.py), the memory manager
(src/llm/memory_manager.py) over the in-memory store adapter
(src/llm/stores/adapters/inmemory_store.py), the model manager's RAG pipeline
(src/llm/model_manager.py), the skill context resolution
(src/agents/skills/base_skill.py), and the tool gateway
(src/runtime/tools/tool_client.py, tool_policy.py).

Python dicts are embedded as association lists preserving insertion order,
floats as rationals, and fallible code as Except.  The graph's typed channels
(LastValue = overwrite, Topic = concatenate, BinaryOperatorAggregate = the
declared reducer) are applied exactly as declared in StageGraph.__init__;
node functions receive the live channel values, so in-place mutations they
perform (as the agent node does on executed_agents_per_stage) are visible to
the reducer that subsequently merges their returned delta.
-/

namespace AgenticSystem

/-- History record, from AgentOutput in graph/state.py: {stage, role, output}. -/
structure AgentOutput where
  stage : String
  role : String
  output : String
deriving DecidableEq, Repr

/-- Session state threaded through the graph, from the State schema in
graph/state.py plus the channels declared in StageGraph.__init__
(src/graph/stage_graph.py lines 35-47).  executed_agents_per_stage and
rewards are Python dicts embedded as insertion-ordered association lists. -/
structure GState where
  session_id : String
  task : String
  agent : String
  stage : String
  done : Bool
  history_agents : List AgentOutput
  executed : List (String × List String)
  rewards : List (String × Rat)
deriving DecidableEq, Repr

/-- Python dict read with default []: executed_agents_per_stage.get(stage, []). -/
def execGet : List (String × List String) → String → List String
  | [], _ => []
  | p :: rest, st => if p.1 = st then p.2 else execGet rest st

/-- Python dict write (insertion order preserved, first occurrence updated). -/
def execSet : List (String × List String) → String → List String → List (String × List String)
  | [], st, v => [(st, v)]
  | p :: rest, st, v => if p.1 = st then (st, v) :: rest else p :: execSet rest st v

/-- Stage definition, from the Stage class of src/runtime/stage_registry.py:
name, allowed_agents, next_stages, priority, terminal, and the compiled
exit_condition (a predicate over the session state). -/
structure Stage where
  name : String
  allowed_agents : List String
  next_stages : List String
  priority : Int
  terminal : Bool
  exit_condition : GState → Bool

/-- Stage lookup by name, from StageRegistry.get (first match, as in the
dict built by load_stages).  The registry is embedded as its priority-sorted
stage list (the _order the loader builds). -/
def getStage : List Stage → String → Option Stage
  | [], _ => none
  | s :: rest, n => if s.name = n then some s else getStage rest n

/-- Ordered successor, from StageRegistry.next_stage (src/runtime/stage_registry.py
lines 108-115): the stage after the first occurrence of the current name in the
priority order; none when the current stage is last or unknown. -/
def nextStageFrom : List Stage → String → Option String
  | [], _ => none
  | s :: rest, n =>
    if s.name = n then (rest.head?).map (fun t => t.name) else nextStageFrom rest n

/-- Decision emitted by one router visit (the delta returned by stage_router in
src/graph/stage_graph.py lines 126-156): route to an agent of the current
stage, advance the stage and route to its first agent, or signal done. -/
inductive RouterDelta where
  | route (next_agent : String)
  | advance (stage next_agent : String)
  | finished
deriving DecidableEq, Repr

/-- The stage_router node (src/graph/stage_graph.py lines 126-156).  nodes is
the set of agent nodes registered in the graph.  Errors model the Python
exceptions the body can raise: AttributeError when the stage lookup returns
None, ValueError when a chosen agent is not a graph node, IndexError when the
next stage has an empty allowed_agents list.  should_exit swallows exceptions
from the compiled expression, so exit_condition is a total predicate here. -/
def stageRouter (reg : List Stage) (nodes : List String) (s : GState) :
    Except String RouterDelta :=
  match getStage reg s.stage with
  | none => .error "AttributeError: NoneType has no attribute allowed_agents"
  | some stage =>
    match stage.allowed_agents.filter (fun a => decide (a ∉ execGet s.executed s.stage)) with
    | a :: _ =>
      if a ∈ nodes then .ok (.route a)
      else .error "ValueError: next agent is not a valid graph node"
    | [] =>
      if stage.exit_condition s then
        match nextStageFrom reg s.stage with
        | none => .ok .finished
        | some ns =>
          match getStage reg ns with
          | none => .error "AttributeError: NoneType has no attribute allowed_agents"
          | some nstage =>
            match nstage.allowed_agents with
            | [] => .error "IndexError: list index out of range"
            | na :: _ =>
              if na ∈ nodes then .ok (.advance ns na)
              else .error "ValueError: first agent of next stage not in graph nodes"
      else .ok .finished

/-- One agent node built by StageGraph._make_agent_node (src/graph/stage_graph.py
lines 92-122), composed with the channel merge of its returned delta.  The node
mutates the executed_agents_per_stage channel value in place (setdefault and
append on the live dict and list), so when the BinaryOperatorAggregate reducer
(lines 39-45) merges the returned delta {stage: executed}, the accumulator
already holds the appended list and the result is its self-concatenation.
The history_agents delta is one AgentOutput, concatenated by the Topic channel.
out gives the output of agent.run for the invoked role. -/
def agentNode (reg : List Stage) (out : String → GState → String) (role : String)
    (s : GState) : Except String GState :=
  match getStage reg s.stage with
  | none => .error "AttributeError: NoneType has no attribute allowed_agents"
  | some stage =>
    if role ∈ stage.allowed_agents then
      let s1 : GState := { s with agent := role }
      let output := out role s1
      let e := execGet s1.executed s1.stage
      let e2 := if role ∈ e then e else e ++ [role]
      .ok { s1 with
        executed := execSet s1.executed s1.stage (e2 ++ e2),
        history_agents := s1.history_agents ++ [⟨s1.stage, role, output⟩] }
    else
      .ok s

/-- Result of advancing the graph from one router visit to the next. -/
inductive StepResult where
  | halt (s : GState)
  | next (s : GState)
  | fail (e : String)
deriving Repr

/-- One full superstep pair starting at a router visit: the router delta is
merged into the channels (LastValue for stage/done), the conditional edge
(src/graph/stage_graph.py lines 169-173) selects the agent named by the
delta's next_agent or END, and the chosen agent node runs and its delta is
merged.  On a finished delta the workflow halts with done = true. -/
def routerStep (reg : List Stage) (nodes : List String)
    (out : String → GState → String) (s : GState) : StepResult :=
  match stageRouter reg nodes s with
  | .error e => .fail e
  | .ok .finished => .halt { s with done := true }
  | .ok (.route na) =>
    match agentNode reg out na s with
    | .error e => .fail e
    | .ok s2 => .next s2
  | .ok (.advance ns na) =>
    match agentNode reg out na { s with stage := ns } with
    | .error e => .fail e
    | .ok s2 => .next s2

/-- Fuelled execution of the graph from a router visit to termination,
modelling graph.astream driven to completion. -/
def runRouter (reg : List Stage) (nodes : List String)
    (out : String → GState → String) : Nat → GState → Except String GState
  | 0, _ => .error "no fuel"
  | fuel + 1, s =>
    match routerStep reg nodes out s with
    | .halt s2 => .ok s2
    | .next s2 => runRouter reg nodes out fuel s2
    | .fail e => .error e

/-- States observed at router visits: the reflexive-transitive closure of
routerStep along its non-halting steps. -/
inductive RouterReach (reg : List Stage) (nodes : List String)
    (out : String → GState → String) : GState → GState → Prop where
  | refl : ∀ s, RouterReach reg nodes out s s
  | step : ∀ s t u, RouterReach reg nodes out s t →
      routerStep reg nodes out t = StepResult.next u → RouterReach reg nodes out s u

/-- First stage in priority order, from StageRegistry.first_stage
(src/runtime/stage_registry.py lines 103-106); none models the ValueError
raised when no stages are loaded. -/
def firstStage (reg : List Stage) : Option String :=
  reg.head?.map (fun s => s.name)

/-- Initial session state built by RuntimeManager.run_user_message
(src/runtime/runtime_manager.py lines 182-192). -/
def initState (sid task : String) (reg : List Stage) : GState :=
  { session_id := sid
    task := task
    agent := ""
    stage := (firstStage reg).getD ""
    done := false
    history_agents := []
    executed := []
    rewards := [] }

/-- Total number of recorded executions, summed across stages: the total size
of executed_agents_per_stage. -/
def sumExec (m : List (String × List String)) : Nat :=
  (m.map (fun p => p.2.length)).sum

/-- Number of history_agents records carrying a given stage name. -/
def histCountStage (h : List AgentOutput) (st : String) : Nat :=
  (h.filter (fun r => decide (r.stage = st))).length

/-- Position of a stage name in the priority order (first occurrence), the
index StageRegistry.next_stage computes with list.index. -/
def stageIdx? : List Stage → String → Option Nat
  | [], _ => none
  | s :: rest, n => if s.name = n then some 0 else (stageIdx? rest n).map (· + 1)

section ConcreteScenario

/-- Single-stage workspace of end-to-end scenario 1: one stage solo with one
allowed agent a1; the exit condition compares the per-stage execution count
with 1 as the spec scenario declares. -/
def soloStage : Stage :=
  { name := "solo"
    allowed_agents := ["a1"]
    next_stages := []
    priority := 1
    terminal := true
    exit_condition := fun s => decide ((execGet s.executed "solo").length = 1) }

/-- Registry holding only the solo stage. -/
def regSolo : List Stage := [soloStage]

/-- Graph nodes for the solo workspace: one node per registered agent role. -/
def nodesSolo : List String := ["a1"]

/-- Concrete agent outputs: every invocation returns the same text. -/
def outConst : String → GState → String := fun _ _ => "out"

/-- Initial session state of the solo scenario. -/
def exS0 : GState := initState "sid" "hello" regSolo

/-- State at the second router visit of the solo scenario, after a1 ran once. -/
def exS1 : GState :=
  { session_id := "sid"
    task := "hello"
    agent := "a1"
    stage := "solo"
    done := false
    history_agents := [⟨"solo", "a1", "out"⟩]
    executed := [("solo", ["a1", "a1"])]
    rewards := [] }

/-- Two-stage workspace used against the terminal-flag handling: the first
stage is flagged terminal and a later stage follows it in priority order. -/
def termStage : Stage :=
  { name := "s1"
    allowed_agents := ["a1"]
    next_stages := []
    priority := 1
    terminal := true
    exit_condition := fun _ => true }

/-- Successor stage of the two-stage workspace, priority 2. -/
def afterStage : Stage :=
  { name := "s2"
    allowed_agents := ["a2"]
    next_stages := []
    priority := 2
    terminal := false
    exit_condition := fun _ => true }

/-- Priority-ordered registry of the two-stage workspace. -/
def regTwo : List Stage := [termStage, afterStage]

/-- Graph nodes of the two-stage workspace. -/
def nodesTwo : List String := ["a1", "a2"]

/-- Router-visit state of the two-stage workspace in which a1 has run in the
terminal first stage and its exit condition holds. -/
def exT : GState :=
  { session_id := "sid"
    task := "t"
    agent := "a1"
    stage := "s1"
    done := false
    history_agents := [⟨"s1", "a1", "out"⟩]
    executed := [("s1", ["a1", "a1"])]
    rewards := [] }

/-- One-stage workspace whose single terminal stage always satisfies its exit
condition and has no successor. -/
def onlyStage : Stage :=
  { name := "only"
    allowed_agents := ["a1"]
    next_stages := []
    priority := 1
    terminal := true
    exit_condition := fun _ => true }

/-- Registry holding only onlyStage. -/
def regOnly : List Stage := [onlyStage]

/-- Router-visit state of the one-stage workspace after a1 has run. -/
def exU : GState :=
  { session_id := "sid"
    task := "t"
    agent := "a1"
    stage := "only"
    done := false
    history_agents := [⟨"only", "a1", "out"⟩]
    executed := [("only", ["a1", "a1"])]
    rewards := [] }

end ConcreteScenario

/-- Inductive invariant of the stage-graph execution: the current stage has a
position in the priority order, every per-stage executed list has the length
the self-concatenating reducer produces (2^(k+1) - 2 after k invocations in
that stage), and stages holding executions sit at or before the current stage
in the priority order. -/
def RInv (reg : List Stage) (s : GState) : Prop :=
  (∃ i, stageIdx? reg s.stage = some i) ∧
  (∀ st, (execGet s.executed st).length =
      2 * 2 ^ histCountStage s.history_agents st - 2) ∧
  (∀ st, execGet s.executed st ≠ [] →
    ∀ j, stageIdx? reg s.stage = some j →
      ∃ i, stageIdx? reg st = some i ∧ i ≤ j)

/-- Value returned by Orchestrator.run: either the orchestrator's own
session_state dict, which stays the empty dict for the whole run, or a
populated session state. -/
inductive SessionResult where
  | empty
  | state (s : GState)
deriving DecidableEq, Repr

/-- Orchestrator.run (src/runtime/orchestrator.py lines 72-121).  The method
streams the compiled graph to completion with the caller's session_state
argument (the astream loop, lines 91-99), emitting orchestrator_start, one
graph_event per yielded event, and orchestrator_end on the event bus, and then
returns self.session_state (line 121).  self.session_state is initialized to
the empty dict in __init__ (line 66) and never assigned during run — the
delta-merge loop is commented out (lines 113-120) — so the returned mapping
is the empty dict regardless of what the graph computed.  The first component
here is the final state the driven graph itself reached (the content the
stream produced and emitted as events); the second is the value run returns. -/
def orchestratorRun (reg : List Stage) (nodes : List String)
    (out : String → GState → String) (fuel : Nat) (sessionState : GState) :
    Except String GState × SessionResult :=
  (runRouter reg nodes out fuel sessionState, SessionResult.empty)

/-- Python dict read by key (first occurrence; embedded dicts keep one entry
per key). -/
def dictGet {α β : Type} [DecidableEq α] : List (α × β) → α → Option β
  | [], _ => none
  | p :: rest, k => if p.1 = k then some p.2 else dictGet rest k

/-- Python dict write: update in place when the key exists, append at the end
otherwise (insertion order preserved). -/
def dictPut {α β : Type} [DecidableEq α] : List (α × β) → α → β → List (α × β)
  | [], k, v => [(k, v)]
  | p :: rest, k, v => if p.1 = k then (k, v) :: rest else p :: dictPut rest k v

/-- Namespace tuple (tenant, bucket). -/
abbrev Ns := String × String

/-- Metadata and document values stored in memory entries. -/
inductive MVal where
  | num (q : Rat)
  | nat (n : Nat)
  | str (s : String)
deriving DecidableEq, Repr

/-- Stored memory entry, from the dict MemoryManager.save_semantic builds
(src/llm/memory_manager.py lines 110-116): text, metadata, document, reward;
created_at is an opaque timestamp and is omitted. -/
structure MemEntry where
  text : String
  metadata : List (String × MVal)
  document : List (String × MVal)
  reward : Option Rat
deriving DecidableEq, Repr

/-- Content of the in-memory store adapter: the namespaced key/value mapping
the wrapped LangGraph store holds for it. -/
abbrev MemStore := List ((Ns × String) × MemEntry)

/-- MemoryManager state (src/llm/memory_manager.py lines 82-95): the wrapped
store and the process-global in-memory reward cache, which is keyed by the
bare key string with no namespace component (line 93 and line 130). -/
structure MemoryManager where
  store : MemStore
  rewardCache : List (String × List Rat)
deriving DecidableEq, Repr

/-- statistics.mean over the cached rewards, as used by _update_reward_stats. -/
def ratMean (l : List Rat) : Rat := l.sum / (l.length : Rat)

/-- MemoryManager._update_reward_stats (src/llm/memory_manager.py lines
206-220): read the cached rewards for the bare key; when some exist, read the
entry currently stored at (namespace, key) and, when present, merge avg_reward
and reward_count into its metadata and put the updated entry back (this inner
put is awaited and does commit). -/
def updateRewardStats (mm : MemoryManager) (ns : Ns) (key : String) :
    MemoryManager :=
  match dictGet mm.rewardCache key with
  | none => mm
  | some [] => mm
  | some (r :: rs) =>
    match dictGet mm.store (ns, key) with
    | none => mm
    | some entry =>
      let md2 := dictPut
        (dictPut entry.metadata "avg_reward" (MVal.num (ratMean (r :: rs))))
        "reward_count" (MVal.nat (r :: rs).length)
      let entry2 : MemEntry := { entry with metadata := md2 }
      { mm with store := dictPut mm.store (ns, key) entry2 }

/-- MemoryManager.save_semantic (src/llm/memory_manager.py lines 100-135) over
the in-memory store adapter.  The entry dict is built (lines 110-116), but the
main store write is the expression self.store.put(namespace, key, entry,
semantic=True) inside the plain helper _save_semantics run via
asyncio.to_thread (lines 122-127): InMemoryStore.put is an async def
(src/llm/stores/adapters/inmemory_store.py lines 260-268), so the unawaited
call only creates a coroutine and the store content does not change.  When a
reward is given it is appended to the bare-key reward cache via
setdefault(key, []).append(reward) and _update_reward_stats runs (lines
129-131).  The decay hook _maybe_decay tests hasattr(store, "stats"), which
the in-memory adapter lacks, so it does nothing.  Returns the updated manager
together with the built entry, which the Python method returns. -/
def saveSemantic (mm : MemoryManager) (ns : Ns) (key text : String)
    (metadata : List (String × MVal)) (reward : Option Rat) :
    MemoryManager × MemEntry :=
  let entry : MemEntry :=
    { text := text, metadata := metadata, document := [], reward := reward }
  match reward with
  | none => (mm, entry)
  | some r =>
    let cache2 := dictPut mm.rewardCache key
      ((dictGet mm.rewardCache key).getD [] ++ [r])
    (updateRewardStats { mm with rewardCache := cache2 } ns key, entry)

/-- Fresh memory manager over a fresh in-memory store. -/
def freshMM : MemoryManager := { store := [], rewardCache := [] }

/-- Python errors raised by the embedded store utility code. -/
inductive PyErr where
  | attributeError (name : String)
deriving DecidableEq, Repr

/-- Attributes InMemoryStore.__init__ assigns on the adapter object
(src/llm/stores/adapters/inmemory_store.py lines 229-255): semantic_enabled
and store; nothing else is ever assigned. -/
def inMemoryStoreAttrs : List String := ["semantic_enabled", "store"]

/-- Python attribute lookup against an object's attribute set. -/
def getattrOpt (attrs : List String) (name : String) : Option String :=
  if name ∈ attrs then some name else none

/-- InMemoryStore.count_namespace (src/llm/stores/adapters/inmemory_store.py
lines 328-331): the body first evaluates the f-string referencing
self.namespace_prefix and would then call self.redis.keys; neither attribute
exists on the adapter, so the first lookup raises AttributeError.  The final
arm is dead code given inMemoryStoreAttrs and only records what the body
would do if both attributes existed (return a key count). -/
def countNamespaceInMemory (ns : Ns) : Except PyErr Nat :=
  match getattrOpt inMemoryStoreAttrs "namespace_prefix" with
  | none => Except.error (PyErr.attributeError "namespace_prefix")
  | some _ =>
    match getattrOpt inMemoryStoreAttrs "redis" with
    | none => Except.error (PyErr.attributeError "redis")
    | some _ => Except.ok 0

/-- MemoryManager.count_namespace (src/llm/memory_manager.py lines 240-241):
a direct await of the store's count_namespace; store errors propagate. -/
def memoryCountNamespace (ns : Ns) : Except PyErr Nat :=
  countNamespaceInMemory ns

/-- Operations ModelManager.generate performs, in execution order. -/
inductive GenOp where
  | retrieve (ns : Ns) (query : String)
  | llmInvoke (messages : List (String × String))
  | persistSemantic (ns : Ns) (key : String)
  | reflectInvoke (messages : List (String × String))
  | persistEpisode (ns : Option Ns) (key : String)
  | logWarning (msg : String)
deriving DecidableEq, Repr

/-- Prompt augmentation of ModelManager.generate steps 1-2
(src/llm/model_manager.py lines 206-219): when retrieval produced results,
their text fields are newline-joined and prepended to the prompt. -/
def augmentPrompt (contextMemories : List String) (prompt : String) : String :=
  if contextMemories = [] then prompt
  else String.intercalate "\n" contextMemories ++ "\n\n" ++ prompt

/-- ModelManager._self_reflect (src/llm/model_manager.py lines 254-311):
build the reflection messages, invoke the chat model, and persist the
response as an episode under key:reflection; any exception inside the body is
caught and logged (lines 310-311), never propagated.  Returns the operations
performed. -/
def selfReflect (llm : List (String × String) → Except String String)
    (reflectionPrompt : String) (ns : Option Ns) (key text : String) :
    List GenOp :=
  let messages := [("system", reflectionPrompt), ("user", text)]
  match llm messages with
  | Except.ok _ =>
    [GenOp.reflectInvoke messages, GenOp.persistEpisode ns (key ++ ":reflection")]
  | Except.error e => [GenOp.reflectInvoke messages, GenOp.logWarning e]

/-- ModelManager.generate (src/llm/model_manager.py lines 185-249): retrieve
semantic context when a namespace is given, prepend it to the prompt, invoke
the chat model (failures propagate), persist the interaction when persist and
namespace hold, then await _self_reflect (line 246) and finally return the
completion (line 249).  retrieved stands for the store's semantic search
results for the prompt; the returned list contains every operation the
coroutine performs before its return statement, in order. -/
def generate (llm : List (String × String) → Except String String)
    (retrieved : List String) (reflectionPrompt : String) (prompt : String)
    (ns : Option Ns) (persist : Bool) :
    Except String (String × List GenOp) :=
  let contextMemories : List String := match ns with
    | some _ => retrieved
    | none => []
  let augmented := augmentPrompt contextMemories prompt
  let retrieveOps : List GenOp := match ns with
    | some n => [GenOp.retrieve n prompt]
    | none => []
  let messages := [("user", augmented)]
  match llm messages with
  | Except.error e => Except.error e
  | Except.ok response =>
    let interaction := "Prompt: " ++ augmented ++ "\nResponse: " ++ response
    let persistOps : List GenOp := match ns with
      | some n => if persist then [GenOp.persistSemantic n "last_query"] else []
      | none => []
    let reflectOps := selfReflect llm reflectionPrompt ns "last_query" interaction
    Except.ok (response,
      retrieveOps ++ [GenOp.llmInvoke messages] ++ persistOps ++ reflectOps)

/-- True when the operation list contains a reflection chat-model call. -/
def hasReflectInvoke (ops : List GenOp) : Bool :=
  ops.any fun op => match op with
    | GenOp.reflectInvoke _ => true
    | _ => false

/-- Chat model stub returning the same completion for every message list. -/
def llmEcho : List (String × String) → Except String String :=
  fun _ => Except.ok "resp"

/-- One declared context entry of an agent's context.json: name, type, and
the type-specific fields the embedded cases read. -/
structure CtxEntry where
  name : String
  type : String
  key : Option String
  text : Option String
deriving DecidableEq, Repr

/-- Python values resolved into the context mapping. -/
inductive PyVal where
  | pynone
  | str (s : String)
deriving DecidableEq, Repr

/-- Resolution of one context entry inside BaseSkill._resolve_context
(src/agents/skills/base_skill.py lines 141-164): state entries read
state.get(key or name), which never raises and yields None for absent keys;
memory, text_to_sql, external and computed entries call into the runtime and
may raise, embedded by the ext callback; text entries read the literal text
field, raising KeyError when it is missing; unknown types yield None. -/
def resolveEntry (ext : CtxEntry → Except String PyVal)
    (state : List (String × PyVal)) (ctx : CtxEntry) : Except String PyVal :=
  if ctx.type = "state" then
    Except.ok ((dictGet state (ctx.key.getD ctx.name)).getD PyVal.pynone)
  else if ctx.type = "memory" ∨ ctx.type = "text_to_sql" ∨
      ctx.type = "external" ∨ ctx.type = "computed" then
    ext ctx
  else if ctx.type = "text" then
    match ctx.text with
    | some t => Except.ok (PyVal.str t)
    | none => Except.error "KeyError: text"
  else
    Except.ok PyVal.pynone

/-- BaseSkill._resolve_context (src/agents/skills/base_skill.py lines
137-173): the for-loop over the context schema runs inside one try/except
(lines 140 and 166), so the first entry whose resolution raises aborts the
loop; the context built so far is returned after the exception is logged, and
the failing entry as well as every later entry is absent from it. -/
def resolveContext (ext : CtxEntry → Except String PyVal)
    (state : List (String × PyVal)) : List CtxEntry → List (String × PyVal)
  | [] => []
  | c :: rest =>
    match resolveEntry ext state c with
    | Except.ok v => (c.name, v) :: resolveContext ext state rest
    | Except.error _ => []

/-- Context entry A of the resolution scenario: a state entry. -/
def ctxA : CtxEntry := { name := "A", type := "state", key := none, text := none }

/-- Context entry B of the resolution scenario: an external entry whose
resolver raises. -/
def ctxB : CtxEntry := { name := "B", type := "external", key := none, text := none }

/-- Context entry C of the resolution scenario: a state entry declared after
the failing one. -/
def ctxC : CtxEntry := { name := "C", type := "state", key := none, text := none }

/-- Session state carrying values for the A and C entries. -/
def ctxState : List (String × PyVal) := [("A", PyVal.str "va"), ("C", PyVal.str "vc")]

/-- External resolver failing exactly on entry B. -/
def extFailB : CtxEntry → Except String PyVal := fun ctx =>
  if ctx.name = "B" then Except.error "ImportError" else Except.ok (PyVal.str "ext")

/-- Workspace tool policy mapping, from the tools_policy.json shape
{agents: {role: {tools: [...]}}}, flattened to role to tool-name list. -/
abbrev ToolPolicyMap := List (String × List String)

/-- ToolPolicy.allowed_tools_for_agent (src/runtime/tools/tool_policy.py
lines 16-19): the role's declared tool list, empty when the role is absent. -/
def allowedToolsForAgent (policy : ToolPolicyMap) (role : String) : List String :=
  (dictGet policy role).getD []

/-- ToolPolicy.check (src/runtime/tools/tool_policy.py lines 21-32): raises
PermissionError internally when the tool is not in the role's list, catches
it, logs the denial, and returns False; returns True otherwise. -/
def toolPolicyCheck (policy : ToolPolicyMap) (role tool : String) : Bool :=
  decide (tool ∈ allowedToolsForAgent policy role)

/-- Events observable during one ToolClient.call. -/
inductive ToolEv where
  | registryLookup (name : String)
  | toolRun (name : String)
  | logDenied (role tool : String)
deriving DecidableEq, Repr

/-- Tool registry content: name to the tool's call body; ToolRegistry.get
(src/runtime/tools/tool_registry.py lines 41-44) raises KeyError for unknown
names. -/
abbrev ToolRegistryMap :=
  List (String × (List (String × String) → Except String (List (String × String))))

/-- ToolClient.call (src/runtime/tools/tool_client.py lines 27-37): run the
policy check; when allowed, look the tool up in the registry (KeyError when
missing) and await its call, propagating the outcome; when denied, log the
denial and return the empty dict without consulting the registry.  The second
component lists the observable events in order. -/
def toolClientCall (registry : ToolRegistryMap) (policy : ToolPolicyMap)
    (role tool : String) (kwargs : List (String × String)) :
    Except String (List (String × String)) × List ToolEv :=
  if toolPolicyCheck policy role tool then
    match dictGet registry tool with
    | none => (Except.error "KeyError: tool not found", [ToolEv.registryLookup tool])
    | some f => (f kwargs, [ToolEv.registryLookup tool, ToolEv.toolRun tool])
  else
    (Except.ok [], [ToolEv.logDenied role tool])

/-- Tool body for book_flight in the denial scenario. -/
def bookFlightTool : List (String × String) → Except String (List (String × String)) :=
  fun _ => Except.ok [("booked", "yes")]

/-- Registry that knows book_flight. -/
def regTools : ToolRegistryMap := [("book_flight", bookFlightTool)]

/-- Policy granting the opt role only web_search. -/
def optPolicy : ToolPolicyMap := [("opt", ["web_search"])]

/-- Pre-existing stored entry used in the cross-namespace reward scenario. -/
def entryX : MemEntry := { text := "x", metadata := [], document := [], reward := none }

/-- Store holding entryX under key m in namespace (u2, b). -/
def st0X : MemStore := [((("u2", "b"), "m"), entryX)]

section ExecMapLemmas

theorem execGet_execSet_self (m : List (String × List String)) (st : String)
    (v : List String) : execGet (execSet m st v) st = v := by
  induction m with
  | nil => simp [execSet, execGet]
  | cons p rest ih =>
    by_cases h : p.1 = st
    · simp [execSet, h, execGet]
    · simp [execSet, h, execGet, ih]

theorem execGet_execSet_ne (m : List (String × List String)) (st st2 : String)
    (v : List String) (h : st ≠ st2) :
    execGet (execSet m st v) st2 = execGet m st2 := by
  induction m with
  | nil => simp [execSet, execGet, h]
  | cons p rest ih =>
    simp only [execSet]
    by_cases hp : p.1 = st
    · have hne2 : p.1 ≠ st2 := by rw [hp]; exact h
      rw [if_pos hp]
      simp only [execGet, if_neg h, if_neg hne2]
    · rw [if_neg hp]
      simp only [execGet]
      by_cases hq : p.1 = st2
      · rw [if_pos hq, if_pos hq]
      · rw [if_neg hq, if_neg hq, ih]

theorem histCountStage_append (h : List AgentOutput) (r : AgentOutput) (st : String) :
    histCountStage (h ++ [r]) st =
      histCountStage h st + (if r.stage = st then 1 else 0) := by
  by_cases hr : r.stage = st <;> simp [histCountStage, List.filter_append, hr]

end ExecMapLemmas

section StageIndexLemmas

theorem stageIdx?_isSome_of_getStage (reg : List Stage) (n : String) (s : Stage)
    (h : getStage reg n = some s) : ∃ i, stageIdx? reg n = some i := by
  induction reg with
  | nil => simp [getStage] at h
  | cons x rest ih =>
    by_cases hx : x.name = n
    · exact ⟨0, by simp [stageIdx?, hx]⟩
    · rw [getStage, if_neg hx] at h
      obtain ⟨i, hi⟩ := ih h
      exact ⟨i + 1, by simp [stageIdx?, hx, hi]⟩

theorem nextStageFrom_eq_some (reg : List Stage) (n ns : String)
    (h : nextStageFrom reg n = some ns) :
    ∃ j x, stageIdx? reg n = some j ∧ reg.get? (j + 1) = some x ∧ x.name = ns := by
  induction reg with
  | nil => simp [nextStageFrom] at h
  | cons s rest ih =>
    by_cases hs : s.name = n
    · rw [nextStageFrom, if_pos hs] at h
      cases hh : rest.head? with
      | none => rw [hh] at h; simp at h
      | some x =>
        rw [hh] at h
        replace h : x.name = ns := by simpa using h
        refine ⟨0, x, by simp [stageIdx?, hs], ?_, h⟩
        show rest.get? 0 = some x
        rw [List.get?_zero]
        exact hh
    · rw [nextStageFrom, if_neg hs] at h
      obtain ⟨j, x, h1, h2, h3⟩ := ih h
      exact ⟨j + 1, x, by simp [stageIdx?, hs, h1], by simpa using h2, h3⟩

theorem stageIdx?_of_get? (reg : List Stage)
    (hnd : (reg.map (fun s => s.name)).Nodup) (m : Nat) (x : Stage)
    (h : reg.get? m = some x) : stageIdx? reg x.name = some m := by
  induction reg generalizing m with
  | nil => cases m <;> simp [List.get?] at h
  | cons s rest ih =>
    cases m with
    | zero =>
      have hx : s = x := by
        have h0 : some s = some x := h
        injection h0
      subst hx
      simp [stageIdx?]
    | succ m =>
      have h2 : rest.get? m = some x := h
      have hmem : x ∈ rest := List.get?_mem h2
      have hxname : x.name ∈ rest.map (fun s => s.name) := List.mem_map_of_mem _ hmem
      simp only [List.map_cons, List.nodup_cons] at hnd
      have hne : s.name ≠ x.name := fun he => hnd.1 (he ▸ hxname)
      rw [stageIdx?, if_neg hne, ih hnd.2 m h2]
      rfl

end StageIndexLemmas

section RouterCharacterization

theorem agentNode_eq_of_mem (reg : List Stage) (out : String → GState → String)
    (role : String) (s : GState) (stage : Stage)
    (hst : getStage reg s.stage = some stage) (hmem : role ∈ stage.allowed_agents) :
    agentNode reg out role s = Except.ok { s with
      agent := role,
      executed := execSet s.executed s.stage
        ((if role ∈ execGet s.executed s.stage
          then execGet s.executed s.stage
          else execGet s.executed s.stage ++ [role]) ++
         (if role ∈ execGet s.executed s.stage
          then execGet s.executed s.stage
          else execGet s.executed s.stage ++ [role])),
      history_agents := s.history_agents ++
        [⟨s.stage, role, out role { s with agent := role }⟩] } := by
  simp only [agentNode, hst, hmem, if_true]

theorem stageRouter_route_inv (reg : List Stage) (nodes : List String) (s : GState)
    (na : String) (h : stageRouter reg nodes s = Except.ok (RouterDelta.route na)) :
    ∃ stage, getStage reg s.stage = some stage ∧ na ∈ stage.allowed_agents ∧
      na ∉ execGet s.executed s.stage := by
  unfold stageRouter at h
  split at h
  · exact absurd h (by simp)
  · rename_i stage hst
    refine ⟨stage, hst, ?_⟩
    split at h
    · rename_i a arest hfil
      split at h
      · have ha : a = na := by simpa using h
        subst ha
        have hmem : a ∈ stage.allowed_agents.filter
            (fun x => decide (x ∉ execGet s.executed s.stage)) := by
          rw [hfil]; exact List.mem_cons_self a arest
        have hpair := List.mem_filter.mp hmem
        exact ⟨hpair.1, by simpa using hpair.2⟩
      · exact absurd h (by simp)
    · split at h
      · split at h
        · exact absurd h (by simp)
        · split at h
          · exact absurd h (by simp)
          · split at h
            · exact absurd h (by simp)
            · split at h
              · exact absurd h (by simp)
              · exact absurd h (by simp)
      · exact absurd h (by simp)

theorem stageRouter_advance_inv (reg : List Stage) (nodes : List String) (s : GState)
    (ns na : String)
    (h : stageRouter reg nodes s = Except.ok (RouterDelta.advance ns na)) :
    nextStageFrom reg s.stage = some ns ∧
      ∃ nstage, getStage reg ns = some nstage ∧ na ∈ nstage.allowed_agents := by
  unfold stageRouter at h
  split at h
  · exact absurd h (by simp)
  · rename_i stage hst
    split at h
    · split at h
      · exact absurd h (by simp)
      · exact absurd h (by simp)
    · split at h
      · split at h
        · exact absurd h (by simp)
        · rename_i ns2 hnx
          split at h
          · exact absurd h (by simp)
          · rename_i nstage hst2
            split at h
            · exact absurd h (by simp)
            · rename_i b brest hal
              split at h
              · have hinj : ns2 = ns ∧ b = na := by
                  have h2 := h
                  simp only [Except.ok.injEq, RouterDelta.advance.injEq] at h2
                  exact h2
                obtain ⟨h1, h2⟩ := hinj
                subst h1; subst h2
                exact ⟨hnx, nstage, hst2, by rw [hal]; exact List.mem_cons_self b brest⟩
              · exact absurd h (by simp)
      · exact absurd h (by simp)

end RouterCharacterization

section RouterInvariant

theorem rinv_init (reg : List Stage) (hne : reg ≠ []) (sid task : String) :
    RInv reg (initState sid task reg) := by
  obtain ⟨s, rest, rfl⟩ := List.exists_cons_of_ne_nil hne
  refine ⟨⟨0, ?_⟩, fun st => rfl, fun st hst => absurd rfl hst⟩
  simp [initState, firstStage, stageIdx?]

theorem rinv_step (reg : List Stage) (nodes : List String)
    (out : String → GState → String)
    (hnd : (reg.map (fun st => st.name)).Nodup) (t u : GState)
    (hinv : RInv reg t) (hstep : routerStep reg nodes out t = StepResult.next u) :
    RInv reg u := by
  obtain ⟨hidx, hform, hord⟩ := hinv
  unfold routerStep at hstep
  split at hstep
  · exact absurd hstep (by simp)
  · exact absurd hstep (by simp)
  · rename_i na hr
    split at hstep
    · exact absurd hstep (by simp)
    · rename_i s2 ha
      replace hstep : s2 = u := by simpa using hstep
      subst hstep
      obtain ⟨stage, hst, hmem, hnin⟩ := stageRouter_route_inv reg nodes t na hr
      rw [agentNode_eq_of_mem reg out na t stage hst hmem, if_neg hnin] at ha
      injection ha with ha
      subst ha
      refine ⟨hidx, ?_, ?_⟩
      · intro st
        by_cases hsc : t.stage = st
        · subst hsc
          rw [execGet_execSet_self]
          rw [histCountStage_append]
          simp only [if_pos rfl, if_true]
          have h1 := hform t.stage
          have h2 : 1 ≤ 2 ^ histCountStage t.history_agents t.stage :=
            Nat.one_le_two_pow
          have h3 : 2 ^ (histCountStage t.history_agents t.stage + 1) =
              2 ^ histCountStage t.history_agents t.stage * 2 := pow_succ 2 _
          simp only [List.length_append, List.length_cons, List.length_nil]
          omega
        · rw [execGet_execSet_ne _ _ _ _ hsc]
          rw [histCountStage_append]
          simp only [if_neg hsc]
          simpa using hform st
      · intro st hne2 j hj
        by_cases hsc : t.stage = st
        · subst hsc
          exact ⟨j, hj, le_refl j⟩
        · rw [execGet_execSet_ne _ _ _ _ hsc] at hne2
          exact hord st hne2 j hj
  · rename_i ns na hr
    split at hstep
    · exact absurd hstep (by simp)
    · rename_i s2 ha
      replace hstep : s2 = u := by simpa using hstep
      subst hstep
      obtain ⟨hnx, nstage, hst2, hmem⟩ := stageRouter_advance_inv reg nodes t ns na hr
      obtain ⟨j, x, hjidx, hget, hxn⟩ := nextStageFrom_eq_some reg t.stage ns hnx
      have hnsidx : stageIdx? reg ns = some (j + 1) := by
        have := stageIdx?_of_get? reg hnd (j + 1) x hget
        rwa [hxn] at this
      have hE : execGet t.executed ns = [] := by
        by_contra hne2
        obtain ⟨i, hi, hij⟩ := hord ns hne2 j hjidx
        rw [hnsidx] at hi
        have hji : j + 1 = i := by injection hi
        omega
      have hnin : na ∉ execGet t.executed ns := by rw [hE]; simp
      have hst2b : getStage reg (GState.stage { t with stage := ns }) = some nstage := hst2
      rw [agentNode_eq_of_mem reg out na { t with stage := ns } nstage hst2b hmem] at ha
      simp only at ha
      rw [if_neg hnin] at ha
      injection ha with ha
      subst ha
      refine ⟨⟨j + 1, hnsidx⟩, ?_, ?_⟩
      · intro st
        by_cases hsc : ns = st
        · subst hsc
          rw [execGet_execSet_self, hE]
          rw [histCountStage_append]
          simp only [if_pos rfl, if_true]
          have h1 := hform ns
          rw [hE] at h1
          simp only [List.length_nil] at h1
          have h2 : 1 ≤ 2 ^ histCountStage t.history_agents ns :=
            Nat.one_le_two_pow
          have h3 : 2 ^ (histCountStage t.history_agents ns + 1) =
              2 ^ histCountStage t.history_agents ns * 2 := pow_succ 2 _
          simp only [List.length_append, List.length_cons, List.length_nil,
            List.nil_append]
          omega
        · rw [execGet_execSet_ne _ _ _ _ hsc]
          rw [histCountStage_append]
          simp only [if_neg hsc]
          simpa using hform st
      · intro st hne2 j2 hj2
        rw [hnsidx] at hj2
        have hj2e : j + 1 = j2 := by injection hj2
        subst hj2e
        by_cases hsc : ns = st
        · subst hsc
          exact ⟨j + 1, hnsidx, le_refl _⟩
        · rw [execGet_execSet_ne _ _ _ _ hsc] at hne2
          obtain ⟨i, hi, hij⟩ := hord st hne2 j hjidx
          exact ⟨i, hi, by omega⟩

theorem rinv_reach (reg : List Stage) (nodes : List String)
    (out : String → GState → String)
    (hnd : (reg.map (fun st => st.name)).Nodup) (hne : reg ≠ [])
    (sid task : String) (s : GState)
    (h : RouterReach reg nodes out (initState sid task reg) s) : RInv reg s := by
  induction h with
  | refl => exact rinv_init reg hne sid task
  | step t u ht hstep ih => exact rinv_step reg nodes out hnd t u ih hstep

end RouterInvariant

section ClaimC2

/-- C2 (counterexample): the claim states that at every router visit the
length of history_agents equals the summed size of executed_agents_per_stage
and that the reducer never accumulates a role more than once per invocation.
In the single-stage scenario, the state reached at the second router visit
has one history record but executed_agents_per_stage totals two entries
(the agent node appends the role to the live channel list and the reducer
then concatenates that list onto itself), refuting the claim. -/
theorem C2_counterexample :
    RouterReach regSolo nodesSolo outConst (initState "sid" "hello" regSolo) exS1 ∧
    ¬ exS1.history_agents.length = sumExec exS1.executed :=
  ⟨RouterReach.step _ _ _ (RouterReach.refl _) rfl, by decide⟩

/-- C2 (amended): at every router visit reachable from the initial session
state of a registry with distinct stage names, the executed_agents_per_stage
list of each stage has length 2^(k+1) - 2, where k is the number of
history_agents records for that stage: each invocation doubles the list after
appending the role, so the claimed equality holds only while both sides are
zero. -/
theorem C2_amended_executed_doubling (reg : List Stage) (nodes : List String)
    (out : String → GState → String) (sid task : String) (s : GState)
    (hnd : (reg.map (fun st => st.name)).Nodup) (hne : reg ≠ [])
    (h : RouterReach reg nodes out (initState sid task reg) s) (st : String) :
    (execGet s.executed st).length =
      2 * 2 ^ histCountStage s.history_agents st - 2 :=
  (rinv_reach reg nodes out hnd hne sid task s h).2.1 st

/-- Witness instantiating C2_amended_executed_doubling on the single-stage
scenario at its second router visit. -/
theorem C2_amended_witness :
    (execGet exS1.executed "solo").length =
      2 * 2 ^ histCountStage exS1.history_agents "solo" - 2 :=
  C2_amended_executed_doubling regSolo nodesSolo outConst "sid" "hello" exS1
    (by decide) (by simp [regSolo])
    (RouterReach.step _ _ _ (RouterReach.refl _) rfl) "solo"

end ClaimC2

section ClaimC3

/-- C3: at a router visit whose stage resolves in the registry, if the list of
allowed agents not yet recorded in executed_agents_per_stage for that stage is
non-empty and its first element (in declaration order) is a graph node, the
router emits a route to exactly that first remaining agent. -/
theorem C3_router_routes_first_unexecuted (reg : List Stage) (nodes : List String)
    (s : GState) (stage : Stage) (r : String)
    (hs : getStage reg s.stage = some stage)
    (hr : (stage.allowed_agents.filter
        (fun a => decide (a ∉ execGet s.executed s.stage))).head? = some r)
    (hnode : r ∈ nodes) :
    stageRouter reg nodes s = Except.ok (RouterDelta.route r) := by
  cases hfil : stage.allowed_agents.filter
      (fun a => decide (a ∉ execGet s.executed s.stage)) with
  | nil => rw [hfil] at hr; simp at hr
  | cons a arest =>
    rw [hfil] at hr
    have ha : a = r := by simpa using hr
    subst ha
    simp only [stageRouter, hs, hfil, if_pos hnode]

/-- Witness instantiating C3_router_routes_first_unexecuted on the initial
state of the single-stage scenario. -/
theorem C3_witness :
    stageRouter regSolo nodesSolo exS0 = Except.ok (RouterDelta.route "a1") :=
  C3_router_routes_first_unexecuted regSolo nodesSolo exS0 soloStage "a1"
    rfl rfl (by decide)

end ClaimC3

section ClaimC4

/-- C4 (counterexample): the claim states that once all allowed agents ran and
the exit condition holds, a stage flagged terminal emits done and never
advances even if a successor exists in priority order.  In the two-stage
workspace the first stage is terminal with exit condition true, yet after its
only agent ran the router advances to the successor stage instead of emitting
done: the router never consults the terminal flag. -/
theorem C4_counterexample :
    (getStage regTwo "s1").map (fun st => st.terminal) = some true ∧
    stageRouter regTwo nodesTwo exT =
      Except.ok (RouterDelta.advance "s2" "a2") :=
  ⟨rfl, rfl⟩

/-- C4 (amended): at a router visit where every allowed agent of the current
stage has executed and the exit condition holds, the router emits done exactly
when the stage has no successor in the priority order; the terminal flag plays
no role in the decision. -/
theorem C4_amended_done_iff_no_successor (reg : List Stage) (nodes : List String)
    (s : GState) (stage : Stage)
    (hs : getStage reg s.stage = some stage)
    (hall : stage.allowed_agents.filter
        (fun a => decide (a ∉ execGet s.executed s.stage)) = [])
    (hexit : stage.exit_condition s = true) :
    stageRouter reg nodes s = Except.ok RouterDelta.finished ↔
      nextStageFrom reg s.stage = none := by
  constructor
  · intro h
    cases hnx : nextStageFrom reg s.stage with
    | none => rfl
    | some ns =>
      simp only [stageRouter, hs, hall, hexit, hnx, if_true] at h
      split at h
      · exact absurd h (by simp)
      · split at h
        · exact absurd h (by simp)
        · split at h
          · exact absurd h (by simp)
          · exact absurd h (by simp)
  · intro h
    simp only [stageRouter, hs, hall, hexit, h, if_true]

/-- Witness instantiating C4_amended_done_iff_no_successor on the one-stage
workspace after its single agent ran. -/
theorem C4_amended_witness :
    stageRouter regOnly ["a1"] exU = Except.ok RouterDelta.finished ↔
      nextStageFrom regOnly exU.stage = none :=
  C4_amended_done_iff_no_successor regOnly ["a1"] exU onlyStage rfl rfl rfl

end ClaimC4

section DictLemmas

theorem dictGet_dictPut_self {α β : Type} [DecidableEq α] (m : List (α × β))
    (k : α) (v : β) : dictGet (dictPut m k v) k = some v := by
  induction m with
  | nil => simp [dictPut, dictGet]
  | cons p rest ih =>
    by_cases h : p.1 = k
    · simp [dictPut, h, dictGet]
    · simp [dictPut, h, dictGet, ih]

theorem dictGet_dictPut_ne {α β : Type} [DecidableEq α] (m : List (α × β))
    (k k2 : α) (v : β) (h : k ≠ k2) :
    dictGet (dictPut m k v) k2 = dictGet m k2 := by
  induction m with
  | nil => simp [dictPut, dictGet, h]
  | cons p rest ih =>
    simp only [dictPut]
    by_cases hp : p.1 = k
    · have hne2 : p.1 ≠ k2 := by rw [hp]; exact h
      rw [if_pos hp]
      simp only [dictGet, if_neg h, if_neg hne2]
    · rw [if_neg hp]
      simp only [dictGet]
      by_cases hq : p.1 = k2
      · rw [if_pos hq, if_pos hq]
      · rw [if_neg hq, if_neg hq, ih]

theorem ratMean_pair (r1 r2 : Rat) : ratMean [r1, r2] = (r1 + r2) / 2 := by
  simp [ratMean]

theorem hasReflectInvoke_selfReflect
    (llm : List (String × String) → Except String String)
    (reflectionPrompt : String) (ns : Option Ns) (key text : String) :
    hasReflectInvoke (selfReflect llm reflectionPrompt ns key text) = true := by
  cases h : llm [("system", reflectionPrompt), ("user", text)] with
  | ok v => simp [selfReflect, h, hasReflectInvoke]
  | error e => simp [selfReflect, h, hasReflectInvoke]

end DictLemmas

section ClaimC1

/-- C1 (code bug): the claim and the spec say Orchestrator.run returns the
final session state of the run, with done = true even on failure.  run
instead returns self.session_state, which __init__ sets to the empty dict and
nothing ever writes (the delta-merge loop is commented out), so the caller
gets an empty mapping: on the single-stage scenario the graph stream reaches
its terminal state with done = true, yet run returns the empty dict. -/
theorem C1_run_returns_empty_dict :
    (orchestratorRun regSolo nodesSolo outConst 10 exS0).2 = SessionResult.empty ∧
    (orchestratorRun regSolo nodesSolo outConst 10 exS0).1 =
      Except.ok { exS1 with done := true } ∧
    GState.done { exS1 with done := true } = true :=
  ⟨rfl, rfl, rfl⟩

end ClaimC1

section ClaimC5

/-- C5 (code bug): spec scenario 6 expects that after save_semantic(ns, m, t,
reward 0.5) then save_semantic(ns, m, t, reward 0.25) on a fresh manager over
the in-memory store, the stored metadata for m holds avg_reward 0.375 and
reward_count 2.  Because _save_semantics never awaits the adapter's async
put, no entry is ever stored under m, the read-modify-write finds nothing to
update, and no metadata exists at all; the reward cache nevertheless holds
both rewards and aggregates them to exactly the expected mean 3/8 over
count 2, which is what a committed write would have stored. -/
theorem C5_reward_metadata_never_stored :
    (let mm1 := (saveSemantic freshMM ("user", "b") "m" "t" [] (some (1/2))).1
     let mm2 := (saveSemantic mm1 ("user", "b") "m" "t" [] (some (1/4))).1
     dictGet mm2.store (("user", "b"), "m") = none ∧
     dictGet mm2.rewardCache "m" = some [1/2, 1/4] ∧
     ratMean [1/2, 1/4] = 3/8 ∧
     ([1/2, 1/4] : List Rat).length = 2) := by
  refine ⟨rfl, rfl, ?_, rfl⟩
  rw [ratMean_pair]
  norm_num

end ClaimC5

section ClaimC6

/-- C6 (counterexample): the claim states the self-reflection step never
blocks the return of the completion, so the operations generate performs
before returning contain no reflection chat-model call.  On a concrete
namespaced call they do: generate awaits _self_reflect before its return
statement. -/
theorem C6_counterexample :
    (generate llmEcho [] "rp" "hi" (some ("t", "b")) true).map
      (fun p => hasReflectInvoke p.2) = Except.ok true := rfl

/-- C6 (amended): generate awaits self-reflection to completion before
returning: whenever the main chat-model call succeeds, generate returns that
completion and the operations executed before the return include the
reflection invocation; the completion is returned no matter how the
reflection call itself behaves, since _self_reflect swallows its failures. -/
theorem C6_amended_reflection_awaited
    (llm : List (String × String) → Except String String)
    (retrieved : List String) (reflectionPrompt prompt : String) (ns : Ns)
    (persist : Bool) (r : String)
    (hmain : llm [("user", augmentPrompt retrieved prompt)] = Except.ok r) :
    (generate llm retrieved reflectionPrompt prompt (some ns) persist).map
      (fun p => (p.1, hasReflectInvoke p.2)) = Except.ok (r, true) := by
  have hrefl := hasReflectInvoke_selfReflect llm reflectionPrompt (some ns)
    "last_query" ("Prompt: " ++ augmentPrompt retrieved prompt ++ "\nResponse: " ++ r)
  cases persist <;>
    simp [generate, hmain, Except.map, hasReflectInvoke, selfReflect] at hrefl ⊢ <;>
    try exact hrefl

/-- Witness instantiating C6_amended_reflection_awaited on a concrete
namespaced call with the echo chat model. -/
theorem C6_amended_witness :
    (generate llmEcho [] "rp" "hi" (some ("t", "b")) true).map
      (fun p => (p.1, hasReflectInvoke p.2)) = Except.ok ("resp", true) :=
  C6_amended_reflection_awaited llmEcho [] "rp" "hi" ("t", "b") true "resp" rfl

end ClaimC6

section ClaimC7

/-- C7 (counterexample): the claim states a failure resolving one entry
leaves only that entry null and every other entry, including later ones,
still resolves.  With entries A, B, C where the external resolver raises on
B, entry C resolves fine on its own, yet the returned context contains only
A: B is absent rather than null and C was never resolved. -/
theorem C7_counterexample :
    resolveEntry extFailB ctxState ctxC = Except.ok (PyVal.str "vc") ∧
    resolveContext extFailB ctxState [ctxA, ctxB, ctxC] =
      [("A", PyVal.str "va")] :=
  ⟨rfl, rfl⟩

/-- C7 (amended): a failure while resolving one entry is logged and aborts
context resolution: entries declared before the failing one resolve to their
values, while the failing entry and every entry after it are absent from the
returned context. -/
theorem C7_amended_failure_aborts (ext : CtxEntry → Except String PyVal)
    (state : List (String × PyVal)) (pre : List CtxEntry) (bad : CtxEntry)
    (post : List CtxEntry) (err : String)
    (hpre : ∀ c ∈ pre, ∃ v, resolveEntry ext state c = Except.ok v)
    (hbad : resolveEntry ext state bad = Except.error err) :
    resolveContext ext state (pre ++ bad :: post) =
      resolveContext ext state pre ∧
    (resolveContext ext state pre).length = pre.length := by
  induction pre with
  | nil => simp [resolveContext, hbad]
  | cons c rest ih =>
    obtain ⟨v, hv⟩ := hpre c (List.mem_cons_self c rest)
    obtain ⟨ih1, ih2⟩ := ih (fun d hd => hpre d (List.mem_cons_of_mem c hd))
    constructor
    · simp only [List.cons_append, resolveContext, hv, List.append_eq, ih1]
    · simp only [resolveContext, hv, List.length_cons, ih2]

/-- Witness instantiating C7_amended_failure_aborts on the A, B, C scenario. -/
theorem C7_amended_witness :
    resolveContext extFailB ctxState ([ctxA] ++ ctxB :: [ctxC]) =
      resolveContext extFailB ctxState [ctxA] ∧
    (resolveContext extFailB ctxState [ctxA]).length = [ctxA].length :=
  C7_amended_failure_aborts extFailB ctxState [ctxA] ctxB [ctxC] "ImportError"
    (fun c hc => by
      rcases List.mem_singleton.mp hc with rfl
      exact ⟨PyVal.str "va", rfl⟩)
    rfl

end ClaimC7

section ClaimC8

/-- C8: for every tool name not contained in the calling role's allowed list,
ToolClient.call returns the empty result without raising and without
consulting the registry or running any tool body — whatever the registry
contains — and the only observable event is the logged denial. -/
theorem C8_denied_tool_never_invoked (registry : ToolRegistryMap)
    (policy : ToolPolicyMap) (role tool : String)
    (kwargs : List (String × String))
    (h : tool ∉ allowedToolsForAgent policy role) :
    toolClientCall registry policy role tool kwargs =
      (Except.ok [], [ToolEv.logDenied role tool]) := by
  simp [toolClientCall, toolPolicyCheck, h]

/-- Witness instantiating C8_denied_tool_never_invoked: the opt role calls
book_flight, which the registry knows but the policy does not grant. -/
theorem C8_witness :
    toolClientCall regTools optPolicy "opt" "book_flight" [] =
      (Except.ok [], [ToolEv.logDenied "opt" "book_flight"]) :=
  C8_denied_tool_never_invoked regTools optPolicy "opt" "book_flight" []
    (by decide)

end ClaimC8

section ClaimC9

/-- C9: the reward cache is keyed by the bare key string with no namespace
component, so a reward saved under namespace ns1 is included in the
avg_reward and reward_count aggregates subsequently written for the same key
under a distinct namespace ns2: whenever the read-modify-write of the second
save finds an entry at (ns2, k), the metadata written there averages both
rewards and counts them both. -/
theorem C9_reward_cache_ignores_namespace (ns1 ns2 : Ns) (k txt : String)
    (r1 r2 : Rat) (entry : MemEntry) (st0 : MemStore)
    (hdist : ns1 ≠ ns2)
    (hmiss : dictGet st0 (ns1, k) = none)
    (hhit : dictGet st0 (ns2, k) = some entry) :
    ∃ e2, dictGet ((saveSemantic
          ((saveSemantic { store := st0, rewardCache := [] } ns1 k txt []
            (some r1)).1) ns2 k txt [] (some r2)).1).store (ns2, k) = some e2 ∧
      dictGet e2.metadata "avg_reward" = some (MVal.num ((r1 + r2) / 2)) ∧
      dictGet e2.metadata "reward_count" = some (MVal.nat 2) := by
  have h1 : (saveSemantic { store := st0, rewardCache := [] } ns1 k txt []
      (some r1)).1 = { store := st0, rewardCache := [(k, [r1])] } := by
    simp [saveSemantic, updateRewardStats, dictGet, dictPut, hmiss]
  rw [h1]
  have h2 : (saveSemantic { store := st0, rewardCache := [(k, [r1])] } ns2 k
      txt [] (some r2)).1 =
      { store := dictPut st0 (ns2, k)
          { entry with metadata := dictPut (dictPut entry.metadata "avg_reward"
              (MVal.num (ratMean [r1, r2]))) "reward_count" (MVal.nat 2) },
        rewardCache := [(k, [r1, r2])] } := by
    simp [saveSemantic, updateRewardStats, dictGet, dictPut, hhit]
  rw [h2]
  refine ⟨_, dictGet_dictPut_self st0 (ns2, k) _, ?_, ?_⟩
  · rw [dictGet_dictPut_ne _ _ _ _ (by decide), dictGet_dictPut_self,
      ratMean_pair]
  · rw [dictGet_dictPut_self]

/-- Witness instantiating C9_reward_cache_ignores_namespace: rewards 1/2 and
1/4 saved for key m under the distinct namespaces (u1, b) and (u2, b), with
an entry pre-existing at ((u2, b), m). -/
theorem C9_witness :
    ∃ e2, dictGet ((saveSemantic
          ((saveSemantic { store := st0X, rewardCache := [] } ("u1", "b") "m"
            "t" [] (some (1/2))).1) ("u2", "b") "m" "t" [] (some (1/4))).1).store
        (("u2", "b"), "m") = some e2 ∧
      dictGet e2.metadata "avg_reward" = some (MVal.num ((1/2 + 1/4) / 2)) ∧
      dictGet e2.metadata "reward_count" = some (MVal.nat 2) :=
  C9_reward_cache_ignores_namespace ("u1", "b") ("u2", "b") "m" "t" (1/2)
    (1/4) entryX st0X (by decide) rfl rfl

end ClaimC9

section ClaimC10

/-- C10: MemoryManager.count_namespace backed by the in-memory reference
store raises AttributeError for every namespace — the adapter's body
references the never-assigned namespace_prefix (and redis) attributes — and
so never returns an integer count. -/
theorem C10_count_namespace_raises (ns : Ns) :
    memoryCountNamespace ns =
      Except.error (PyErr.attributeError "namespace_prefix") ∧
    ∀ n : Nat, memoryCountNamespace ns ≠ Except.ok n := by
  refine ⟨rfl, fun n h => ?_⟩
  rw [show memoryCountNamespace ns =
      Except.error (PyErr.attributeError "namespace_prefix") from rfl] at h
  exact Except.noConfusion h

end ClaimC10

end AgenticSystem
